import Mathlib

set_option maxRecDepth 100000

/-!
Verification of the grid-bot core (`trading_bots.py`): grid-level
generation, order counting, futures position sizing, liquidation-price
estimation and the deleverage-boundary search.

Prices and quantities (Python floats) are modelled as exact rationals.
Operations that can raise in Python (`ZeroDivisionError` on a zero float
denominator, `ValueError` on contract violations) return `Option`, with
`none` standing for the raised error.
-/

/-- Floor-rounding of a price to the tick grid: `(price // tick) * tick`. -/
def roundTick (tick price : ℚ) : ℚ := ⌊price / tick⌋ * tick

/-- The generated grid levels: the first `n` ideal levels floor-rounded to
the tick grid, followed by the unrounded `upper` bound, exactly as
`_generate_grid_levels` builds its list. -/
def gridLevelsAux (ideal : ℕ → ℚ) (n : ℕ) (tick upper : ℚ) : List ℚ :=
  ((List.range n).map fun i => roundTick tick (ideal i)) ++ [upper]

/-- Ideal (unrounded) arithmetic-mode level `i`:
`lower_price + i * (upper_price - lower_price) / grid_number`. -/
def arithIdeal (lower upper : ℚ) (n : ℕ) (i : ℕ) : ℚ :=
  lower + i * ((upper - lower) / n)

/-- Arithmetic-mode grid levels. -/
def arithGridLevels (lower upper : ℚ) (n : ℕ) (tick : ℚ) : List ℚ :=
  gridLevelsAux (arithIdeal lower upper n) n tick upper

/-- Ideal (unrounded) geometric-mode level `i`: `lower * ratio ** i`.  The
source computes `ratio = (upper_price / lower_price) ** (1 / grid_number)`,
a real n-th root with no exact rational value in general, so the ratio is a
parameter here; every statement below about geometric grids holds for any
ratio, in particular the code's. -/
def geomIdeal (lower r : ℚ) (i : ℕ) : ℚ := lower * r ^ i

/-- Geometric-mode grid levels, for a given ratio. -/
def geomGridLevels (lower r : ℚ) (n : ℕ) (tick upper : ℚ) : List ℚ :=
  gridLevelsAux (geomIdeal lower r) n tick upper

/-- Index of the first minimal element of a list (the documented behaviour
of `np.argmin`: ties resolve to the first occurrence). -/
def argminIdx : List ℚ → ℕ
  | [] => 0
  | [_] => 0
  | x :: y :: ys =>
    if (y :: ys).getD (argminIdx (y :: ys)) 0 < x then argminIdx (y :: ys) + 1 else 0

/-- The futures grid bot's state.  Asset identifiers are omitted: they are
only forwarded to the external metadata client, whose results appear here
as `tick_size` and `step_size`. -/
structure FuturesGridBot where
  grid_number : ℕ
  entry_price : ℚ
  lower_price : ℚ
  upper_price : ℚ
  qty_per_order : ℚ
  tick_size : ℚ
  step_size : ℚ
  grid_levels : List ℚ
  leverage : ℤ
  maintenance_margin_rate : ℚ

namespace FuturesGridBot

/-- Construction (`__init__`): stores the configuration, the metadata
lookups' results, the generated (arithmetic-mode) grid levels, and the
given leverage — which the constructor does not validate.  The
maintenance margin rate starts at the class constant `0.004`. -/
def init (grid_number : ℕ) (entry_price lower_price upper_price qty_per_order : ℚ)
    (tick_size step_size : ℚ) (leverage : ℤ) : FuturesGridBot :=
  { grid_number := grid_number
    entry_price := entry_price
    lower_price := lower_price
    upper_price := upper_price
    qty_per_order := qty_per_order
    tick_size := tick_size
    step_size := step_size
    grid_levels := arithGridLevels lower_price upper_price grid_number tick_size
    leverage := leverage
    maintenance_margin_rate := 1 / 250 }

/-- Method `closest_grid_level`: the grid level whose absolute difference to
`price` is minimal, first occurrence winning ties (`np.argmin`). -/
def closest_grid_level (b : FuturesGridBot) (price : ℚ) : ℚ :=
  b.grid_levels.getD (argminIdx (b.grid_levels.map fun level => |level - price|)) 0

/-- Method `order_count`: sums of boolean indicators over the grid levels, after
optionally snapping `price` to the closest grid level. -/
def order_count (b : FuturesGridBot) (price : ℚ) (align : Bool) : ℕ × ℕ :=
  let p := if align then b.closest_grid_level price else price
  ((b.grid_levels.map fun level => if level < p then 1 else 0).sum,
   (b.grid_levels.map fun level => if p < level then 1 else 0).sum)

/-- Method `set_leverage`: rejects leverage outside `[1, 125]` (`ValueError`,
modelled as `none`), otherwise updates only the leverage field. -/
def set_leverage (b : FuturesGridBot) (leverage : ℤ) : Option FuturesGridBot :=
  if leverage < 1 ∨ 125 < leverage then none
  else some { b with leverage := leverage }

/-- Method `set_maintenance_margin_rate`: rejects negative rates (`ValueError`,
modelled as `none`), otherwise updates only the rate. -/
def set_maintenance_margin_rate (b : FuturesGridBot) (rate : ℚ) : Option FuturesGridBot :=
  if rate < 0 then none
  else some { b with maintenance_margin_rate := rate }

/-- Method `initial_position_size`: `qty_per_order * (sell_count - 1)` with the
unaligned sell count at `price` (defaulting to `entry_price`). -/
def initial_position_size (b : FuturesGridBot) (price? : Option ℚ) : ℚ :=
  let price := price?.getD b.entry_price
  b.qty_per_order * (((b.order_count price false).2 : ℚ) - 1)

/-- Method `initial_margin_required`: `initial_position_size(price) * price /
leverage`; `none` models the `ZeroDivisionError` at zero leverage. -/
def initial_margin_required (b : FuturesGridBot) (price? : Option ℚ) : Option ℚ :=
  let price := price?.getD b.entry_price
  if b.leverage = 0 then none
  else some (b.initial_position_size (some price) * price / (b.leverage : ℚ))

end FuturesGridBot

/-- One step of the accumulation loop in `liquidation_price`: for a grid
level at or above `price`, add the notional to `total_position_size`, the
order quantity to `total_qty`, and the paper loss to `unrealized_pnl`. -/
def liqStep (q price : ℚ) (acc : ℚ × ℚ × ℚ) (L : ℚ) : ℚ × ℚ × ℚ :=
  if price ≤ L then (acc.1 + q * L, acc.2.1 + q, acc.2.2 - q * (L - price))
  else acc

namespace FuturesGridBot

/-- The accumulation loop of `liquidation_price`: it runs over
`grid_levels[i]` for `i in range(grid_number)`, i.e. over all levels
except the final one.  Result: `(total_position_size, total_qty,
unrealized_pnl)`. -/
def liqAccum (b : FuturesGridBot) (price : ℚ) : ℚ × ℚ × ℚ :=
  (b.grid_levels.take b.grid_number).foldl (liqStep b.qty_per_order price) (0, 0, 0)

/-- Method `liquidation_price`: returns the liquidation price and the unrealized
PnL.  `none` models the `ZeroDivisionError` raised when `leverage == 0`
(computing the multiplier) or when `total_qty * multiplier == 0` (the
final division). -/
def liquidation_price (b : FuturesGridBot) (invested_amount : ℚ)
    (price? : Option ℚ) : Option (ℚ × ℚ) :=
  let price := price?.getD b.entry_price
  let acc := b.liqAccum price
  let total_position_size := acc.1
  let total_qty := acc.2.1
  let unrealized_pnl := acc.2.2
  let maintenance_margin := total_position_size * b.maintenance_margin_rate
  let cross_margin := invested_amount + unrealized_pnl
  if b.leverage = 0 then none
  else
    let multiplier := 1 - 1 / (b.leverage : ℚ)
    if total_qty * multiplier = 0 then none
    else
      some (b.entry_price - (cross_margin - maintenance_margin) / (total_qty * multiplier),
            unrealized_pnl)

/-- The `while True` loop of `deleverage_price_boundary`, one unit of fuel
per iteration: keep stepping `price` down by one tick while the computed
liquidation price is below `price`.  `none` models either a raised error
or a loop still running after `fuel` iterations. -/
def deleverage_loop (b : FuturesGridBot) (invested_amount : ℚ) :
    ℕ → ℚ → Option ℚ
  | 0, _ => none
  | fuel + 1, price =>
    match b.liquidation_price invested_amount (some price) with
    | none => none
    | some (lp, _) =>
      if lp < price then b.deleverage_loop invested_amount fuel (price - b.tick_size)
      else some price

/-- Method `deleverage_price_boundary`: run the loop from the second-highest grid
level, then return the stopping price plus one tick. -/
def deleverage_price_boundary (b : FuturesGridBot) (invested_amount : ℚ)
    (fuel : ℕ) : Option ℚ :=
  let start := b.grid_levels.getD (b.grid_levels.length - 2) 0
  (b.deleverage_loop invested_amount fuel start).map fun p => p + b.tick_size

end FuturesGridBot

/-- A demonstration bot: the spec's worked example grid
`lower=1000, upper=2000, grid_number=5, tick=0.1`, with `entry=1500`,
one unit per order, step `0.01`, leverage `2`. -/
def demoBot : FuturesGridBot :=
  FuturesGridBot.init 5 1500 1000 2000 1 (1/10) (1/100) 2

/-- A small grid (`lower=10, upper=20, grid_number=2, tick=1, entry=15`,
leverage 2) on which the deleverage search walks below `lower_price`. -/
def c2Bot : FuturesGridBot :=
  FuturesGridBot.init 2 15 10 20 1 1 (1/100) 2

/-! ### Helper lemmas -/

theorem sum_indicator_eq_countP (p : ℚ → Prop) [DecidablePred p] (l : List ℚ) :
    (l.map fun x => if p x then (1 : ℕ) else 0).sum = l.countP fun x => decide (p x) := by
  induction l with
  | nil => rfl
  | cons x l ih => by_cases h : p x <;> simp [List.countP_cons, h, ih, Nat.add_comm]

theorem foldl_liqStep (q price : ℚ) (l : List ℚ) :
    ∀ a : ℚ × ℚ × ℚ,
      l.foldl (liqStep q price) a =
        (a.1 + ((l.filter fun L => decide (price ≤ L)).map fun L => q * L).sum,
         a.2.1 + q * ((l.filter fun L => decide (price ≤ L)).length : ℚ),
         a.2.2 - ((l.filter fun L => decide (price ≤ L)).map fun L => q * (L - price)).sum) := by
  induction l with
  | nil => intro a; simp
  | cons x l ih =>
    intro a
    by_cases h : price ≤ x
    · rw [List.foldl_cons, ih]
      simp only [liqStep, if_pos h, List.filter_cons]
      simp only [h, decide_eq_true_eq, if_true, List.map_cons, List.sum_cons,
        List.length_cons, Prod.mk.injEq]
      refine ⟨by ring, by push_cast; ring, by ring⟩
    · rw [List.foldl_cons, ih]
      simp only [liqStep, if_neg h, List.filter_cons]
      simp [h]

theorem sum_map_neg (f : ℚ → ℚ) (l : List ℚ) :
    (l.map fun x => -(f x)).sum = -((l.map f).sum) := by
  induction l with
  | nil => simp
  | cons x l ih => simp [ih]; ring

/-- The triple `liqAccum` computes, phrased over the filtered level list:
`S` is the list of levels among the first `grid_number` that lie at or
above `price`. -/
theorem liqAccum_eq (b : FuturesGridBot) (price : ℚ) :
    b.liqAccum price =
      ((((b.grid_levels.take b.grid_number).filter fun L => decide (price ≤ L)).map
          fun L => b.qty_per_order * L).sum,
       b.qty_per_order *
         (((b.grid_levels.take b.grid_number).filter fun L => decide (price ≤ L)).length : ℚ),
       -((((b.grid_levels.take b.grid_number).filter fun L => decide (price ≤ L)).map
          fun L => b.qty_per_order * (L - price)).sum)) := by
  rw [FuturesGridBot.liqAccum, foldl_liqStep]
  simp [mul_comm]

/-! ### Claim theorems: the liquidation computation -/

/-- C1 (amended): `liquidation_price` accumulates over the grid levels among
the first `grid_number` ones — every level except the final `upper_price` —
that lie at or above `price`: `total_qty` is `qty_per_order` times their
number, `total_position_size` the sum of `qty_per_order * L`, and
`unrealized_pnl` the sum of `-(qty_per_order * (L - price))` over them. -/
theorem liqAccum_filter_spec (b : FuturesGridBot) (price : ℚ) :
    (b.liqAccum price).1 =
        (((b.grid_levels.take b.grid_number).filter fun L => decide (price ≤ L)).map
          fun L => b.qty_per_order * L).sum
    ∧ (b.liqAccum price).2.1 =
        b.qty_per_order *
          (((b.grid_levels.take b.grid_number).filter fun L => decide (price ≤ L)).length : ℚ)
    ∧ (b.liqAccum price).2.2 =
        (((b.grid_levels.take b.grid_number).filter fun L => decide (price ≤ L)).map
          fun L => -(b.qty_per_order * (L - price))).sum := by
  refine ⟨?_, ?_, ?_⟩ <;> simp only [liqAccum_eq, sum_map_neg]

/-- C1 as stated is false: on the worked-example grid at `price = 1700`, two
grid levels (`1800` and `2000 = upper_price`) are at or above the price, but
the accumulated `total_qty` is `1`, not `qty_per_order * 2` — the final
level `upper_price` is never accumulated. -/
theorem liqAccum_skips_last_level_cex :
    ¬ ((demoBot.liqAccum 1700).2.1 =
        demoBot.qty_per_order *
          ((demoBot.grid_levels.filter fun L => decide ((1700 : ℚ) ≤ L)).length : ℚ)) := by
  with_unfolding_all decide

/-- C4: with positive matched quantity and leverage above one,
`liquidation_price` returns exactly
`entry_price - ((invested + unrealized_pnl) - total_position_size * rate) /
(total_qty * (1 - 1/leverage))` paired with the same `unrealized_pnl` it
accumulated, so the result is a function of those inputs alone
(feeding the returned PnL back into the cross margin is exactly what the
formula does). -/
theorem liquidation_price_formula (b : FuturesGridBot) (invested price : ℚ)
    (hq : 0 < (b.liqAccum price).2.1) (hlev : 1 < b.leverage) :
    b.liquidation_price invested (some price) =
      some (b.entry_price -
              ((invested + (b.liqAccum price).2.2) -
                (b.liqAccum price).1 * b.maintenance_margin_rate) /
                ((b.liqAccum price).2.1 * (1 - 1 / (b.leverage : ℚ))),
            (b.liqAccum price).2.2) := by
  have hlev0 : b.leverage ≠ 0 := by omega
  have hmul : (0 : ℚ) < 1 - 1 / (b.leverage : ℚ) := by
    have h2 : (2 : ℚ) ≤ (b.leverage : ℚ) := by exact_mod_cast hlev
    have h3 : 1 / (b.leverage : ℚ) ≤ 1 / 2 := by
      apply one_div_le_one_div_of_le <;> linarith
    linarith
  have hne : (b.liqAccum price).2.1 * (1 - 1 / (b.leverage : ℚ)) ≠ 0 :=
    ne_of_gt (mul_pos hq hmul)
  rw [FuturesGridBot.liquidation_price]
  simp [hlev0, hne]
  exact ⟨ne_of_gt hq, by simpa [one_div] using ne_of_gt hmul⟩

/-- C7: when no quantity was accumulated (`total_qty = 0`) or leverage is
one (`multiplier = 0`), `liquidation_price` fails explicitly — it returns
the error value modelling the raised `ZeroDivisionError` — rather than any
numeric (infinite or NaN) liquidation price. -/
theorem liquidation_price_degenerate (b : FuturesGridBot) (invested price : ℚ)
    (h : (b.liqAccum price).2.1 = 0 ∨ b.leverage = 1) :
    b.liquidation_price invested (some price) = none := by
  rw [FuturesGridBot.liquidation_price]
  rcases h with h | h
  · by_cases h0 : b.leverage = 0
    · simp [h0]
    · simp [h0, h]
  · simp [h]

/-- Witness for C4 on the worked-example bot at `price = 1500`,
`invested = 100`: the hypotheses hold and the formula is reproduced. -/
theorem liquidation_price_formula_witness :
    0 < (demoBot.liqAccum 1500).2.1 ∧ 1 < demoBot.leverage ∧
      demoBot.liquidation_price 100 (some 1500) =
        some (demoBot.entry_price -
                ((100 + (demoBot.liqAccum 1500).2.2) -
                  (demoBot.liqAccum 1500).1 * demoBot.maintenance_margin_rate) /
                  ((demoBot.liqAccum 1500).2.1 * (1 - 1 / (demoBot.leverage : ℚ))),
              (demoBot.liqAccum 1500).2.2) :=
  ⟨by with_unfolding_all decide, by with_unfolding_all decide,
   liquidation_price_formula demoBot 100 1500 (by with_unfolding_all decide)
     (by with_unfolding_all decide)⟩

/-- Witness for C7 on the worked-example bot at `price = 1900`: no level
among the first `grid_number` is at or above the price, so `total_qty = 0`
and the call fails explicitly. -/
theorem liquidation_price_degenerate_witness :
    ((demoBot.liqAccum 1900).2.1 = 0 ∨ demoBot.leverage = 1) ∧
      demoBot.liquidation_price 100 (some 1900) = none :=
  ⟨Or.inl (by with_unfolding_all decide),
   liquidation_price_degenerate demoBot 100 1900
     (Or.inl (by with_unfolding_all decide))⟩

/-- C10: the accumulated unrealized PnL is never positive (each accumulated
term is `-qty_per_order * (L - price)` with `L ≥ price`); it is exactly
zero when the reference price is at or above every accumulated level; and
it is exactly the PnL component `liquidation_price` returns. -/
theorem liq_unrealized_pnl_nonpos (b : FuturesGridBot) (price : ℚ)
    (hq : 0 ≤ b.qty_per_order) :
    (b.liqAccum price).2.2 ≤ 0
    ∧ ((∀ L ∈ (b.grid_levels.take b.grid_number).filter fun L => decide (price ≤ L),
          L ≤ price) → (b.liqAccum price).2.2 = 0)
    ∧ (∀ invested lp up, b.liquidation_price invested (some price) = some (lp, up) →
        up = (b.liqAccum price).2.2) := by
  have hmem : ∀ L ∈ (b.grid_levels.take b.grid_number).filter
      fun L => decide (price ≤ L), price ≤ L := by
    intro L hL
    have := List.of_mem_filter hL
    exact of_decide_eq_true this
  refine ⟨?_, ?_, ?_⟩
  · rw [liqAccum_eq]
    have : 0 ≤ (((b.grid_levels.take b.grid_number).filter
        fun L => decide (price ≤ L)).map fun L => b.qty_per_order * (L - price)).sum := by
      apply List.sum_nonneg
      intro x hx
      obtain ⟨L, hL, rfl⟩ := List.mem_map.mp hx
      have := hmem L hL
      apply mul_nonneg hq
      linarith
    simpa using this
  · intro hall
    rw [liqAccum_eq]
    have : (((b.grid_levels.take b.grid_number).filter
        fun L => decide (price ≤ L)).map fun L => b.qty_per_order * (L - price)).sum = 0 := by
      apply List.sum_eq_zero
      intro x hx
      obtain ⟨L, hL, rfl⟩ := List.mem_map.mp hx
      have h1 := hmem L hL
      have h2 := hall L hL
      have : L = price := le_antisymm h2 h1
      simp [this]
    simpa using this
  · intro invested lp up h
    rw [FuturesGridBot.liquidation_price] at h
    by_cases h0 : b.leverage = 0
    · simp [h0] at h
    · simp [h0] at h
      exact h.2.2.symm

/-- Witness for C10 on the worked-example bot at `price = 2500` (above the
whole grid, so the accumulated PnL is zero). -/
theorem liq_unrealized_pnl_nonpos_witness :
    0 ≤ demoBot.qty_per_order ∧
      ((demoBot.liqAccum 2500).2.2 ≤ 0
       ∧ ((∀ L ∈ (demoBot.grid_levels.take demoBot.grid_number).filter
              fun L => decide ((2500 : ℚ) ≤ L), L ≤ 2500) →
            (demoBot.liqAccum 2500).2.2 = 0)
       ∧ (∀ invested lp up, demoBot.liquidation_price invested (some 2500) = some (lp, up) →
            up = (demoBot.liqAccum 2500).2.2)) :=
  ⟨by with_unfolding_all decide,
   liq_unrealized_pnl_nonpos demoBot 2500 (by with_unfolding_all decide)⟩

/-! ### Claim theorems: sizing, setters, construction -/

/-- C5: `initial_position_size(p)` is `qty_per_order * (sell_count - 1)`
with the unaligned sell count at `p`; `initial_margin_required(p)` is
`initial_position_size(p) * p / leverage`; when no price is supplied both
default to `entry_price`. -/
theorem initial_sizing_spec (b : FuturesGridBot) (p : ℚ) (hlev : b.leverage ≠ 0) :
    b.initial_position_size (some p) =
        b.qty_per_order * (((b.order_count p false).2 : ℚ) - 1)
    ∧ b.initial_margin_required (some p) =
        some (b.initial_position_size (some p) * p / (b.leverage : ℚ))
    ∧ b.initial_position_size none = b.initial_position_size (some b.entry_price)
    ∧ b.initial_margin_required none = b.initial_margin_required (some b.entry_price) := by
  refine ⟨rfl, ?_, rfl, rfl⟩
  rw [FuturesGridBot.initial_margin_required]
  simp [hlev]

/-- Witness for C5 on the worked-example bot at `p = 1500`. -/
theorem initial_sizing_spec_witness :
    demoBot.leverage ≠ 0 ∧
      (demoBot.initial_position_size (some 1500) =
          demoBot.qty_per_order * (((demoBot.order_count 1500 false).2 : ℚ) - 1)
       ∧ demoBot.initial_margin_required (some 1500) =
           some (demoBot.initial_position_size (some 1500) * 1500 / (demoBot.leverage : ℚ))
       ∧ demoBot.initial_position_size none =
           demoBot.initial_position_size (some demoBot.entry_price)
       ∧ demoBot.initial_margin_required none =
           demoBot.initial_margin_required (some demoBot.entry_price)) :=
  ⟨by with_unfolding_all decide,
   initial_sizing_spec demoBot 1500 (by with_unfolding_all decide)⟩

/-- C8 as stated is false: constructing a bot with leverage `126`, outside
`[1, 125]`, raises no error — the constructor simply stores the invalid
value. -/
theorem init_no_leverage_validation_cex :
    (FuturesGridBot.init 5 1500 1000 2000 1 (1/10) (1/100) 126).leverage = 126
    ∧ ¬ (1 ≤ (126 : ℤ) ∧ (126 : ℤ) ≤ 125) :=
  ⟨rfl, by omega⟩

/-- C8 (amended): only the explicit setter validates leverage —
`set_leverage` rejects every value outside `[1, 125]` with an error
(leaving the model unchanged, since no updated model is produced) and
accepts every in-range value; the constructor stores whatever leverage it
is given, performing no validation. -/
theorem set_leverage_validation (b : FuturesGridBot) (lv : ℤ) :
    ((lv < 1 ∨ 125 < lv) → b.set_leverage lv = none)
    ∧ (1 ≤ lv → lv ≤ 125 → b.set_leverage lv = some { b with leverage := lv })
    ∧ ∀ (n : ℕ) (e l u q t s : ℚ),
        (FuturesGridBot.init n e l u q t s lv).leverage = lv := by
  refine ⟨?_, ?_, fun n e l u q t s => rfl⟩
  · intro h
    rw [FuturesGridBot.set_leverage]
    exact if_pos h
  · intro h1 h2
    rw [FuturesGridBot.set_leverage]
    rw [if_neg]
    omega

/-- Witness for C8 (amended): `126` is rejected, `5` is accepted. -/
theorem set_leverage_validation_witness :
    demoBot.set_leverage 126 = none
    ∧ demoBot.set_leverage 5 = some { demoBot with leverage := 5 } :=
  ⟨(set_leverage_validation demoBot 126).1 (by omega),
   (set_leverage_validation demoBot 5).2.1 (by omega) (by omega)⟩

/-- C9: a successful `set_leverage` changes only the leverage field, and a
successful `set_maintenance_margin_rate` changes only the rate field; the
grid levels, tick size, step size and all other configuration fields are
untouched — in particular the grid levels are never regenerated. -/
theorem setters_frame (b b2 b3 : FuturesGridBot) (lv : ℤ) (r : ℚ)
    (hl : b.set_leverage lv = some b2)
    (hr : b.set_maintenance_margin_rate r = some b3) :
    (b2.leverage = lv ∧ b2.grid_levels = b.grid_levels ∧ b2.tick_size = b.tick_size
      ∧ b2.step_size = b.step_size ∧ b2.grid_number = b.grid_number
      ∧ b2.entry_price = b.entry_price ∧ b2.lower_price = b.lower_price
      ∧ b2.upper_price = b.upper_price ∧ b2.qty_per_order = b.qty_per_order
      ∧ b2.maintenance_margin_rate = b.maintenance_margin_rate)
    ∧ (b3.maintenance_margin_rate = r ∧ b3.grid_levels = b.grid_levels
      ∧ b3.tick_size = b.tick_size ∧ b3.step_size = b.step_size
      ∧ b3.grid_number = b.grid_number ∧ b3.entry_price = b.entry_price
      ∧ b3.lower_price = b.lower_price ∧ b3.upper_price = b.upper_price
      ∧ b3.qty_per_order = b.qty_per_order ∧ b3.leverage = b.leverage) := by
  rw [FuturesGridBot.set_leverage] at hl
  rw [FuturesGridBot.set_maintenance_margin_rate] at hr
  split at hl
  · exact absurd hl (by simp)
  · split at hr
    · exact absurd hr (by simp)
    · injection hl with hl
      injection hr with hr
      subst hl
      subst hr
      exact ⟨⟨rfl, rfl, rfl, rfl, rfl, rfl, rfl, rfl, rfl, rfl⟩,
             ⟨rfl, rfl, rfl, rfl, rfl, rfl, rfl, rfl, rfl, rfl⟩⟩

/-- Witness for C9: updating the worked-example bot's leverage to `5` and
its margin rate to `0` leaves the grid levels in place. -/
theorem setters_frame_witness :
    demoBot.set_leverage 5 = some { demoBot with leverage := 5 }
    ∧ demoBot.set_maintenance_margin_rate 0 = some { demoBot with maintenance_margin_rate := 0 }
    ∧ ({ demoBot with leverage := 5 } : FuturesGridBot).grid_levels = demoBot.grid_levels
    ∧ ({ demoBot with maintenance_margin_rate := 0 } : FuturesGridBot).grid_levels
        = demoBot.grid_levels :=
  ⟨rfl, rfl,
   (setters_frame demoBot _ _ 5 0 rfl rfl).1.2.1,
   (setters_frame demoBot _ _ 5 0 rfl rfl).2.2.1⟩

/-- C2: the deleverage search does not fail explicitly when no solvent
price exists within the grid's range — on `c2Bot` with
`invested_amount = 40` every probed price from the start of the search down
through `lower_price = 10` has liquidation price below it, and instead of
raising, the loop walks past the lower bound and returns `1 < lower_price`.
(The loop itself does terminate here: once the whole grid is accumulated the
liquidation price grows as the probe falls, so solvency reappears far below
the grid.) -/
theorem deleverage_runs_below_lower_bound :
    c2Bot.deleverage_price_boundary 40 32 = some 1
    ∧ (1 : ℚ) < c2Bot.lower_price
    ∧ c2Bot.liquidation_price 40 (some c2Bot.lower_price) = some (-199/10, -5) := by
  with_unfolding_all decide

/-! ### Claim theorems: order counting and the closest grid level -/

theorem argminIdx_lt_length : ∀ l : List ℚ, l ≠ [] → argminIdx l < l.length
  | [], h => absurd rfl h
  | [_], _ => by simp [argminIdx]
  | _ :: y :: ys, _ => by
    have ih := argminIdx_lt_length (y :: ys) (by simp)
    rw [argminIdx]
    split
    · simp only [List.length_cons] at ih ⊢
      omega
    · simp

theorem argminIdx_min : ∀ (l : List ℚ) (j : ℕ), j < l.length →
    l.getD (argminIdx l) 0 ≤ l.getD j 0
  | [], j, h => absurd h (by simp)
  | [x], j, h => by
    have hj : j = 0 := by simpa using Nat.lt_one_iff.mp (by simpa using h)
    subst hj
    simp [argminIdx]
  | x :: y :: ys, j, h => by
    have ih := fun k hk => argminIdx_min (y :: ys) k hk
    rw [argminIdx]
    split
    · rename_i hlt
      rw [List.getD_cons_succ]
      cases j with
      | zero => rw [List.getD_cons_zero]; exact le_of_lt hlt
      | succ k => rw [List.getD_cons_succ]; exact ih k (by simpa using h)
    · rename_i hge
      push_neg at hge
      rw [List.getD_cons_zero]
      cases j with
      | zero => rw [List.getD_cons_zero]
      | succ k =>
        rw [List.getD_cons_succ]
        exact le_trans hge (ih k (by simpa using h))

theorem argminIdx_first : ∀ (l : List ℚ) (j : ℕ), j < argminIdx l →
    l.getD (argminIdx l) 0 < l.getD j 0
  | [], j, h => by simp [argminIdx] at h
  | [x], j, h => by simp [argminIdx] at h
  | x :: y :: ys, j, h => by
    have ih := fun k hk => argminIdx_first (y :: ys) k hk
    by_cases hc : (y :: ys).getD (argminIdx (y :: ys)) 0 < x
    · rw [argminIdx, if_pos hc] at h ⊢
      rw [List.getD_cons_succ]
      cases j with
      | zero => rw [List.getD_cons_zero]; exact hc
      | succ k =>
        rw [List.getD_cons_succ]
        exact ih k (Nat.lt_of_succ_lt_succ h)
    · rw [argminIdx, if_neg hc] at h
      exact absurd h (Nat.not_lt_zero j)

theorem getD_map_zero (f : ℚ → ℚ) : ∀ (l : List ℚ) (j : ℕ), j < l.length →
    (l.map f).getD j 0 = f (l.getD j 0)
  | [], j, h => absurd h (by simp)
  | x :: l, 0, _ => by simp
  | x :: l, k + 1, h => by
    simp only [List.map_cons, List.getD_cons_succ]
    exact getD_map_zero f l k (by simpa using h)

/-- C6: with `align = False`, `order_count` returns the number of grid
levels strictly below `price` and the number strictly above it (levels
equal to `price` counted on neither side); with `align = True`, `price` is
first replaced by the closest grid level; and `closest_grid_level` returns
a grid level of minimal absolute difference, every earlier-indexed level
having strictly greater difference (first occurrence wins ties). -/
theorem order_count_spec (b : FuturesGridBot) (price : ℚ) :
    (b.order_count price false).1 =
        b.grid_levels.countP (fun level => decide (level < price))
    ∧ (b.order_count price false).2 =
        b.grid_levels.countP (fun level => decide (price < level))
    ∧ b.order_count price true = b.order_count (b.closest_grid_level price) false
    ∧ (b.grid_levels ≠ [] →
        ∃ i, i < b.grid_levels.length
          ∧ b.closest_grid_level price = b.grid_levels.getD i 0
          ∧ (∀ j, j < b.grid_levels.length →
              |b.grid_levels.getD i 0 - price| ≤ |b.grid_levels.getD j 0 - price|)
          ∧ (∀ j, j < i →
              |b.grid_levels.getD i 0 - price| < |b.grid_levels.getD j 0 - price|)) := by
  refine ⟨?_, ?_, rfl, ?_⟩
  · rw [FuturesGridBot.order_count]
    simpa using sum_indicator_eq_countP (fun level => level < price) b.grid_levels
  · rw [FuturesGridBot.order_count]
    simpa using sum_indicator_eq_countP (fun level => price < level) b.grid_levels
  · intro hne
    have hmapne : b.grid_levels.map (fun level => |level - price|) ≠ [] := by
      simpa using hne
    have h1 : argminIdx (b.grid_levels.map fun level => |level - price|)
        < b.grid_levels.length := by
      have := argminIdx_lt_length _ hmapne
      simpa using this
    refine ⟨argminIdx (b.grid_levels.map fun level => |level - price|), h1, rfl, ?_, ?_⟩
    · intro j hj
      have := argminIdx_min (b.grid_levels.map fun level => |level - price|) j
        (by simpa using hj)
      rw [getD_map_zero _ _ _ h1, getD_map_zero _ _ _ hj] at this
      exact this
    · intro j hj
      have hjlen : j < b.grid_levels.length := lt_trans hj h1
      have := argminIdx_first (b.grid_levels.map fun level => |level - price|) j hj
      rw [getD_map_zero _ _ _ h1, getD_map_zero _ _ _ hjlen] at this
      exact this

/-- Witness for C6 on the worked-example bot at `price = 1450`. -/
theorem order_count_spec_witness :
    demoBot.grid_levels ≠ [] ∧
      (∃ i, i < demoBot.grid_levels.length
        ∧ demoBot.closest_grid_level 1450 = demoBot.grid_levels.getD i 0
        ∧ (∀ j, j < demoBot.grid_levels.length →
            |demoBot.grid_levels.getD i 0 - 1450| ≤ |demoBot.grid_levels.getD j 0 - 1450|)
        ∧ (∀ j, j < i →
            |demoBot.grid_levels.getD i 0 - 1450| < |demoBot.grid_levels.getD j 0 - 1450|)) :=
  ⟨by with_unfolding_all decide,
   (order_count_spec demoBot 1450).2.2.2 (by with_unfolding_all decide)⟩

/-! ### Claim theorems: grid-level generation -/

theorem roundTick_le (tick price : ℚ) (ht : 0 < tick) : roundTick tick price ≤ price := by
  rw [roundTick]
  calc (⌊price / tick⌋ : ℚ) * tick ≤ (price / tick) * tick :=
        mul_le_mul_of_nonneg_right (Int.floor_le _) ht.le
    _ = price := div_mul_cancel₀ price (ne_of_gt ht)

theorem roundTick_lt (tick a b : ℚ) (ht : 0 < tick) (hab : a + tick ≤ b) :
    roundTick tick a < roundTick tick b := by
  have hdiv : a / tick + 1 ≤ b / tick := by
    have h1 : (a + tick) / tick ≤ b / tick := by
      apply div_le_div_of_nonneg_right hab ht.le
    rwa [add_div, div_self (ne_of_gt ht)] at h1
  have hfl : ⌊a / tick⌋ + 1 ≤ ⌊b / tick⌋ := by
    have h2 := Int.floor_mono hdiv
    rwa [Int.floor_add_one] at h2
  have hcast : (⌊a / tick⌋ : ℚ) < (⌊b / tick⌋ : ℚ) := by
    exact_mod_cast (by omega : ⌊a / tick⌋ < ⌊b / tick⌋)
  rw [roundTick, roundTick]
  exact mul_lt_mul_of_pos_right hcast ht

theorem arithIdeal_succ (l u : ℚ) (n : ℕ) (i : ℕ) :
    arithIdeal l u n (i + 1) = arithIdeal l u n i + (u - l) / n := by
  rw [arithIdeal, arithIdeal]
  push_cast
  ring

theorem arithIdeal_top (l u : ℚ) (m : ℕ) : arithIdeal l u (m + 1) (m + 1) = u := by
  rw [arithIdeal]
  have hne : ((m : ℚ) + 1) ≠ 0 := by positivity
  push_cast
  field_simp

theorem gridLevelsAux_length (ideal : ℕ → ℚ) (n : ℕ) (t u : ℚ) :
    (gridLevelsAux ideal n t u).length = n + 1 := by
  simp [gridLevelsAux]

theorem gridLevelsAux_getLast (ideal : ℕ → ℚ) (n : ℕ) (t u : ℚ) :
    (gridLevelsAux ideal n t u).getLast? = some u := by
  rw [gridLevelsAux]
  exact List.getLast?_concat _

theorem gridLevelsAux_multiples (ideal : ℕ → ℚ) (n : ℕ) (t u : ℚ) :
    ∀ x ∈ (gridLevelsAux ideal n t u).take n, ∃ k : ℤ, x = k * t := by
  intro x hx
  have hlen : ((List.range n).map fun i => roundTick t (ideal i)).length = n := by simp
  rw [gridLevelsAux, List.take_left' hlen] at hx
  obtain ⟨i, _, rfl⟩ := List.mem_map.mp hx
  exact ⟨⌊ideal i / t⌋, rfl⟩

theorem gridLevelsAux_chain (ideal : ℕ → ℚ) (n : ℕ) (t u : ℚ) (hn : 0 < n) (ht : 0 < t)
    (hgap : ∀ i, i + 1 < n → ideal i + t ≤ ideal (i + 1))
    (hlast : ideal (n - 1) < u) :
    (gridLevelsAux ideal n t u).Chain' (· < ·) := by
  obtain ⟨m, rfl⟩ : ∃ m, n = m + 1 := ⟨n - 1, by omega⟩
  simp only [Nat.add_sub_cancel] at hlast
  rw [gridLevelsAux, List.chain'_append]
  refine ⟨?_, by simp, ?_⟩
  · rw [List.chain'_map, List.chain'_range_succ]
    intro i hi
    exact roundTick_lt _ _ _ ht (hgap i (by omega))
  · intro x hx y hy
    simp only [List.head?_cons, Option.mem_def, Option.some.injEq] at hy
    subst hy
    rw [List.range_succ, List.map_append, List.map_singleton,
      List.getLast?_concat] at hx
    simp only [Option.mem_def, Option.some.injEq] at hx
    subst hx
    have h1 : roundTick t (ideal m) ≤ ideal m := roundTick_le _ _ ht
    linarith

theorem arithIdeal_gap (l u : ℚ) (n : ℕ) (t : ℚ) (hint : t ≤ (u - l) / n) :
    ∀ i, i + 1 < n → arithIdeal l u n i + t ≤ arithIdeal l u n (i + 1) := by
  intro i _
  rw [arithIdeal_succ]
  linarith

theorem arithIdeal_last_lt (l u : ℚ) (n : ℕ) (t : ℚ) (hn : 0 < n) (ht : 0 < t)
    (hint : t ≤ (u - l) / n) : arithIdeal l u n (n - 1) < u := by
  obtain ⟨m, rfl⟩ : ∃ m, n = m + 1 := ⟨n - 1, by omega⟩
  simp only [Nat.add_sub_cancel]
  have h2 := arithIdeal_succ l u (m + 1) m
  have h3 := arithIdeal_top l u m
  have hd : (0 : ℚ) < (u - l) / (m + 1 : ℕ) := lt_of_lt_of_le ht hint
  linarith

/-- C3 (amended): for every valid configuration (positive `grid_number`,
positive `tick_size`, arithmetic or geometric mode), the generated level
list has exactly `grid_number + 1` elements, its last element equals the
unrounded `upper_price` exactly, and every other element is an exact
multiple of `tick_size` — independently of the mode's ideal level
sequence; the list is strictly ascending whenever consecutive ideal
(unrounded) levels are separated by at least `tick_size` and the last
ideal level lies below `upper_price` (in arithmetic mode this follows from
the grid interval being at least `tick_size`), but not for every valid
configuration. -/
theorem gridLevels_spec (n : ℕ) (t u : ℚ) (hn : 0 < n) (ht : 0 < t) :
    (∀ ideal : ℕ → ℚ,
        (gridLevelsAux ideal n t u).length = n + 1
        ∧ (gridLevelsAux ideal n t u).getLast? = some u
        ∧ (∀ x ∈ (gridLevelsAux ideal n t u).take n, ∃ k : ℤ, x = k * t)
        ∧ ((∀ i, i + 1 < n → ideal i + t ≤ ideal (i + 1)) → ideal (n - 1) < u →
            (gridLevelsAux ideal n t u).Chain' (· < ·)))
    ∧ (∀ l : ℚ,
        (arithGridLevels l u n t).length = n + 1
        ∧ (arithGridLevels l u n t).getLast? = some u
        ∧ (∀ x ∈ (arithGridLevels l u n t).take n, ∃ k : ℤ, x = k * t)
        ∧ (t ≤ (u - l) / n → (arithGridLevels l u n t).Chain' (· < ·)))
    ∧ (∀ lower r : ℚ,
        (geomGridLevels lower r n t u).length = n + 1
        ∧ (geomGridLevels lower r n t u).getLast? = some u
        ∧ (∀ x ∈ (geomGridLevels lower r n t u).take n, ∃ k : ℤ, x = k * t)
        ∧ ((∀ i, i + 1 < n → geomIdeal lower r i + t ≤ geomIdeal lower r (i + 1)) →
            geomIdeal lower r (n - 1) < u →
            (geomGridLevels lower r n t u).Chain' (· < ·))) := by
  refine ⟨fun ideal => ⟨gridLevelsAux_length _ _ _ _, gridLevelsAux_getLast _ _ _ _,
      gridLevelsAux_multiples _ _ _ _,
      fun hgap hlast => gridLevelsAux_chain _ _ _ _ hn ht hgap hlast⟩,
    fun l => ⟨gridLevelsAux_length _ _ _ _, gridLevelsAux_getLast _ _ _ _,
      gridLevelsAux_multiples _ _ _ _,
      fun hint => gridLevelsAux_chain _ _ _ _ hn ht
        (arithIdeal_gap l u n t hint) (arithIdeal_last_lt l u n t hn ht hint)⟩,
    fun lower r => ⟨gridLevelsAux_length _ _ _ _, gridLevelsAux_getLast _ _ _ _,
      gridLevelsAux_multiples _ _ _ _,
      fun hgap hlast => gridLevelsAux_chain _ _ _ _ hn ht hgap hlast⟩⟩

/-- C3 as stated is false: the valid configuration `lower=1000`,
`upper=1001`, `grid_number=5`, `tick_size=1` (grid interval `0.2` below the
tick) yields levels `[1000, 1000, 1000, 1000, 1000, 1001]`, which are not
strictly ascending. -/
theorem arithGridLevels_not_ascending_cex :
    (0 : ℚ) < 1000 ∧ (1000 : ℚ) < 1001 ∧ 0 < (5 : ℕ) ∧ (0 : ℚ) < 1
    ∧ arithGridLevels 1000 1001 5 1 = [1000, 1000, 1000, 1000, 1000, 1001]
    ∧ ¬ (arithGridLevels 1000 1001 5 1).Chain' (· < ·) := by
  have heq : arithGridLevels 1000 1001 5 1 = [1000, 1000, 1000, 1000, 1000, 1001] := by
    with_unfolding_all decide
  refine ⟨by norm_num, by norm_num, by norm_num, by norm_num, heq, ?_⟩
  rw [heq]
  norm_num [List.chain'_cons]

/-- Witness for C3 (amended): the spec's worked arithmetic example
(`lower=1000, upper=2000, grid_number=5, tick=0.1`) and a geometric grid
with ratio `2` (`lower=1000, upper=32000`), both with every hypothesis
discharged at the concrete input. -/
theorem gridLevels_spec_witness :
    0 < (5 : ℕ) ∧ (0 : ℚ) < 1/10
    ∧ (1/10 : ℚ) ≤ (2000 - 1000) / ((5 : ℕ) : ℚ)
    ∧ (arithGridLevels 1000 2000 5 (1/10)).Chain' (· < ·)
    ∧ (∀ i, i + 1 < 5 → geomIdeal 1000 2 i + 1/10 ≤ geomIdeal 1000 2 (i + 1))
    ∧ geomIdeal 1000 2 (5 - 1) < 32000
    ∧ (geomGridLevels 1000 2 5 (1/10) 32000).Chain' (· < ·) := by
  have hgap : ∀ i, i + 1 < 5 → geomIdeal 1000 2 i + 1/10 ≤ geomIdeal 1000 2 (i + 1) := by
    intro i hi
    have hi4 : i < 4 := by omega
    interval_cases i <;> norm_num [geomIdeal]
  have hlast : geomIdeal 1000 2 (5 - 1) < 32000 := by norm_num [geomIdeal]
  refine ⟨by norm_num, by norm_num, by norm_num, ?_, hgap, hlast, ?_⟩
  · exact ((gridLevels_spec 5 (1/10) 2000 (by norm_num) (by norm_num)).2.1 1000).2.2.2
      (by norm_num)
  · exact ((gridLevels_spec 5 (1/10) 32000 (by norm_num) (by norm_num)).2.2 1000 2).2.2.2
      hgap hlast
